import Mathlib

/-!
Verification of the multi-object tracker in `backend/ai/core/tracker.py`
(ByteTrack-style tracker: `KalmanBoxTracker`, `iou`, `ByteTrack`).

Modelling conventions:
* Python floats are modelled as exact rationals (`ℚ`).  None of the verified
  claims depends on rounding; where the occurrence of IEEE non-finite values
  (NaN / infinity) in a predicted box matters, it is modelled by two boolean
  flags supplied by the motion-model parameter (see `KFModel`).
* The Kalman filter object `self.kf` comes from the external `filterpy`
  library.  The repository only configures it and calls `predict` / `update`
  on it, so it is modelled as a parameter (`KFModel`): an abstract hidden
  state `κ` paired with the directly-read part `kf.x[:4]`, together with the
  two flag functions describing the float pathology of the predicted box.
* `scipy.optimize.linear_sum_assignment` is external as well; `lsaMax` is
  modelled from its documented contract: an optimal (maximum-total-score,
  here, since the code negates the IoU matrix) complete matching of the
  rectangular assignment problem, deterministic by construction.
* The class-level counter `KalmanBoxTracker.count` is process-global mutable
  state; it is modelled by threading a `count : ℕ` value through every
  operation that reads or writes it.
-/

/-- A bounding box `[x1, y1, x2, y2]` in corner form. -/
structure Box where
  x1 : ℚ
  y1 : ℚ
  x2 : ℚ
  y2 : ℚ
deriving DecidableEq

/-- The observed part `kf.x[:4]` of the filter state: `[cx, cy, w, h]`. -/
structure Vec4 where
  cx : ℚ
  cy : ℚ
  w : ℚ
  h : ℚ
deriving DecidableEq

/-- One detection supplied by the (external) detector: `{'bbox': ..., 'confidence': ...}`.
The constant `'class': 'person'` field carries no information and is omitted. -/
structure Detection where
  bbox : Box
  confidence : ℚ
deriving DecidableEq

/-- One element of the list returned by `ByteTrack.update`. -/
structure TrackedObject where
  bbox : Int × Int × Int × Int
  tracking_id : ℕ
  confidence : ℚ
  cls : String
deriving DecidableEq

/-- Python `int()` on a rational value: truncation toward zero. -/
def pyInt (q : ℚ) : Int := q.num.tdiv q.den

/-- `KalmanBoxTracker._convert_bbox_to_z`: `[x1,y1,x2,y2]` to `[cx,cy,w,h]`. -/
def convert_bbox_to_z (b : Box) : Vec4 :=
  ⟨b.x1 + (b.x2 - b.x1) / 2, b.y1 + (b.y2 - b.y1) / 2, b.x2 - b.x1, b.y2 - b.y1⟩

/-- `KalmanBoxTracker._convert_z_to_bbox`: `[cx,cy,w,h]` to `[x1,y1,x2,y2]`. -/
def convert_z_to_bbox (z : Vec4) : Box :=
  ⟨z.cx - z.w / 2, z.cy - z.h / 2, z.cx + z.w / 2, z.cy + z.h / 2⟩

/-- `inter_area` of the source `iou`: area of the intersection rectangle,
clamped at 0 in each dimension (`max(0, x2 - x1) * max(0, y2 - y1)`). -/
def interArea (b1 b2 : Box) : ℚ :=
  max 0 (min b1.x2 b2.x2 - max b1.x1 b2.x1) * max 0 (min b1.y2 b2.y2 - max b1.y1 b2.y1)

/-- `bbox_area` of the source `iou`: `(x2 - x1) * (y2 - y1)`. -/
def boxArea (b : Box) : ℚ := (b.x2 - b.x1) * (b.y2 - b.y1)

/-- `union_area` of the source `iou`: `bbox1_area + bbox2_area - inter_area`. -/
def unionArea (b1 b2 : Box) : ℚ := boxArea b1 + boxArea b2 - interArea b1 b2

/-- The source function `iou(bbox1, bbox2)`:
`inter_area / union_area if union_area > 0 else 0`. -/
def iou (b1 b2 : Box) : ℚ :=
  if 0 < unionArea b1 b2 then interArea b1 b2 / unionArea b1 b2 else 0

/-- A box is well formed when `x2 > x1` and `y2 > y1` (the input contract of
the tracker: caller-validated detector boxes). -/
def WellFormed (b : Box) : Prop := b.x1 < b.x2 ∧ b.y1 < b.y2

/-- Two axis-aligned boxes are disjoint: they are separated along some axis. -/
def DisjointBoxes (a b : Box) : Prop :=
  a.x2 ≤ b.x1 ∨ b.x2 ≤ a.x1 ∨ a.y2 ≤ b.y1 ∨ b.y2 ≤ a.y1

/-- The external `filterpy` Kalman filter, as the repository uses it.  The
repository code reads and writes `kf.x[:4]` directly (state initialisation,
the degenerate-size clamp, and the box read-outs), so that part is kept
concrete as a `Vec4`; everything else the filter owns (velocities,
covariances) is an abstract hidden state `κ`.

* `hid0` — the hidden part of a freshly constructed filter (velocities zero,
  the covariance set-up of `KalmanBoxTracker.__init__`).
* `kfPredict` — `kf.predict()`.
* `measUpdate` — `kf.update(z)` for a measurement `z` in `[cx,cy,w,h]` form.
* `isnanBox s` — whether, with IEEE floats, `np.any(np.isnan(...))` holds of
  the box read out of state `s` (the check `ByteTrack.update` performs on
  each freshly predicted box).  Rationals carry no NaN, so the flag models it.
* `nonfiniteBox s` — whether that box contains any non-finite float value
  (NaN or an infinity).  `isnanBox s = true` is meant to imply
  `nonfiniteBox s = true`; the converse fails for `±inf` entries. -/
structure KFModel (κ : Type) where
  hid0 : κ
  kfPredict : Vec4 × κ → Vec4 × κ
  measUpdate : Vec4 × κ → Vec4 → Vec4 × κ
  isnanBox : Vec4 × κ → Bool
  nonfiniteBox : Vec4 × κ → Bool

/-- The per-track state of `KalmanBoxTracker`: the filter state plus the
lifecycle counters set up in `__init__`. -/
structure KalmanBoxTracker (κ : Type) where
  state : Vec4 × κ
  time_since_update : ℕ
  id : ℕ
  history : List Box
  hits : ℕ
  hit_streak : ℕ
  age : ℕ
deriving DecidableEq

/-- `KalmanBoxTracker.__init__(bbox)`: seeds `kf.x[:4]` with the converted
box, takes the next value of the class-level counter `KalmanBoxTracker.count`
as `id` and increments the counter, and zeroes every lifecycle counter.
The counter is threaded explicitly (`count` in, new counter out). -/
def KalmanBoxTracker.create (M : KFModel κ) (bbox : Box) (count : ℕ) :
    KalmanBoxTracker κ × ℕ :=
  (⟨(convert_bbox_to_z bbox, M.hid0), 0, count, [], 0, 0, 0⟩, count + 1)

/-- `KalmanBoxTracker.update(bbox)`: reset `time_since_update`, clear the
history, increment `hits` and `hit_streak`, and run the filter correction
step on the converted box. -/
def KalmanBoxTracker.update (M : KFModel κ) (t : KalmanBoxTracker κ) (bbox : Box) :
    KalmanBoxTracker κ :=
  { t with
    time_since_update := 0
    history := []
    hits := t.hits + 1
    hit_streak := t.hit_streak + 1
    state := M.measUpdate t.state (convert_bbox_to_z bbox) }

/-- `KalmanBoxTracker.predict()`: clamp a collapsed size (`kf.x[2] += ...`
guard: if `w + h <= 0` set `w = 1`), run the filter prediction, increment
`age`, reset `hit_streak` when at least one frame has been missed, increment
`time_since_update`, append the predicted box to the history and return it. -/
def KalmanBoxTracker.predict (M : KFModel κ) (t : KalmanBoxTracker κ) :
    KalmanBoxTracker κ × Box :=
  let v := t.state.1
  let v' := if v.w + v.h ≤ 0 then { v with w := 1 } else v
  let s := M.kfPredict (v', t.state.2)
  let box := convert_z_to_bbox s.1
  ({ t with
      state := s
      age := t.age + 1
      hit_streak := if 0 < t.time_since_update then 0 else t.hit_streak
      time_since_update := t.time_since_update + 1
      history := t.history ++ [box] }, box)

/-- `KalmanBoxTracker.get_state()`: the current box estimate in corner form. -/
def KalmanBoxTracker.get_state (t : KalmanBoxTracker κ) : Box :=
  convert_z_to_bbox t.state.1

/-- All partial matchings (injective sets of `(detection index, track index)`
pairs) between the two given index lists, each matching listed with its
detection indices in order. -/
def allMatchings : List ℕ → List ℕ → List (List (ℕ × ℕ))
  | [], _ => [[]]
  | d :: ds, ts =>
      allMatchings ds ts ++
        ts.flatMap (fun t => (allMatchings ds (ts.erase t)).map (fun m => (d, t) :: m))

/-- The candidate solutions of the rectangular assignment problem on a
`D × T` score matrix: the matchings of full size `min D T`. -/
def matchCandidates (D T : ℕ) : List (List (ℕ × ℕ)) :=
  (allMatchings (List.range D) (List.range T)).filter
    (fun m => decide (m.length = min D T))

/-- Total score of a matching under a score matrix. -/
def totalScore (score : ℕ → ℕ → ℚ) (m : List (ℕ × ℕ)) : ℚ :=
  (m.map (fun p => score p.1 p.2)).sum

/-- Modelled from the documented contract of
`scipy.optimize.linear_sum_assignment` (an external library the tracker
calls on the negated IoU matrix): it returns a complete matching of the
rectangular assignment problem minimising the total cost — equivalently,
since the code negates the matrix, maximising the total IoU.  The model
enumerates the full-size matchings and keeps a maximiser; ties keep the
first candidate, so the result is deterministic. -/
def lsaMax (score : ℕ → ℕ → ℚ) (D T : ℕ) : List (ℕ × ℕ) :=
  match matchCandidates D T with
  | [] => []
  | c :: cs =>
      cs.foldl (fun best m => if totalScore score best < totalScore score m then m else best) c

/-- In-place update of the element at a position of a list (Python
`self.trackers[i].update(...)`). -/
def modifyAt : List α → ℕ → (α → α) → List α
  | [], _, _ => []
  | x :: xs, 0, f => f x :: xs
  | x :: xs, n + 1, f => x :: modifyAt xs n f

/-- The orchestrator state of `ByteTrack`: configuration (fixed at
construction), the live tracker list and the frame counter.  The class-level
id counter `KalmanBoxTracker.count` is process-global and is therefore not a
field; it is threaded through `ByteTrack.update` and `ByteTrack.reset`. -/
structure ByteTrack (κ : Type) where
  max_age : ℤ
  min_hits : ℕ
  iou_threshold : ℚ
  trackers : List (KalmanBoxTracker κ)
  frame_count : ℕ
deriving DecidableEq

/-- `ByteTrack.__init__(max_age, min_hits, iou_threshold)`: stores the
configuration unchecked and starts with no trackers at frame 0.  The source
performs no validation of the configuration. -/
def ByteTrack.construct (max_age : ℤ) (min_hits : ℕ) (iou_threshold : ℚ) :
    ByteTrack κ :=
  ⟨max_age, min_hits, iou_threshold, [], 0⟩

/-- The predict phase of `ByteTrack.update`: every live tracker is advanced
with `predict()`, then the trackers whose predicted box contains a NaN entry
(`np.any(np.isnan(bbox))`) are removed. -/
def predictStage (M : KFModel κ) (ts : List (KalmanBoxTracker κ)) :
    List (KalmanBoxTracker κ) :=
  (ts.map (fun t => (KalmanBoxTracker.predict M t).1)).filter
    (fun t => ! M.isnanBox t.state)

/-- Appending one freshly created tracker (`self.trackers.append(tracker)`),
threading the class-level counter. -/
def spawnOne (M : KFModel κ) (b : Box) (p : List (KalmanBoxTracker κ) × ℕ) :
    List (KalmanBoxTracker κ) × ℕ :=
  (p.1 ++ [(KalmanBoxTracker.create M b p.2).1], (KalmanBoxTracker.create M b p.2).2)

/-- The matched-tracker update loop of `ByteTrack.update`:
`for m in matches: self.trackers[m[1]].update(detection_bboxes[m[0]])`. -/
def updateMatched (M : KFModel κ) (bs : List Box) (ts : List (KalmanBoxTracker κ))
    (ms : List (ℕ × ℕ)) : List (KalmanBoxTracker κ) :=
  ms.foldl
    (fun l m => modifyAt l m.2 (fun tr => KalmanBoxTracker.update M tr (bs.getD m.1 ⟨0, 0, 0, 0⟩)))
    ts

/-- The spawn loop of `ByteTrack.update`: a new tracker for every detection
index not in `matched_dets`. -/
def spawnNew (M : KFModel κ) (bs : List Box) (matched_dets : List ℕ)
    (p : List (KalmanBoxTracker κ) × ℕ) : List (KalmanBoxTracker κ) × ℕ :=
  (List.range bs.length).foldl
    (fun q i => if i ∈ matched_dets then q else spawnOne M (bs.getD i ⟨0, 0, 0, 0⟩) q) p

/-- The no-live-trackers branch of `ByteTrack.update`: a new tracker for
every detection. -/
def spawnAllDets (M : KFModel κ) (bs : List Box) (p : List (KalmanBoxTracker κ) × ℕ) :
    List (KalmanBoxTracker κ) × ℕ :=
  bs.foldl (fun q b => spawnOne M b q) p

/-- The match-and-spawn phase of `ByteTrack.update`: when there are
detections and live trackers, build the IoU matrix
(`iou(det_bbox, tracker.get_state())`), solve the assignment on its
negation, keep the assigned pairs whose IoU reaches `iou_threshold`
(inclusive), update the matched trackers and spawn the unmatched detections;
with no live trackers, spawn every detection; with no detections, do
nothing. -/
def associateStage (M : KFModel κ) (iou_threshold : ℚ) (count : ℕ)
    (detections : List Detection) (ts : List (KalmanBoxTracker κ)) :
    List (KalmanBoxTracker κ) × ℕ :=
  if 0 < detections.length then
    if 0 < ts.length then
      let bs := detections.map (·.bbox)
      let score := fun d t =>
        iou (bs.getD d ⟨0, 0, 0, 0⟩)
          ((ts.map KalmanBoxTracker.get_state).getD t ⟨0, 0, 0, 0⟩)
      let kept := (lsaMax score detections.length ts.length).filter
        (fun m => decide (iou_threshold ≤ score m.1 m.2))
      spawnNew M bs (kept.map (·.1)) (updateMatched M bs ts kept, count)
    else
      spawnAllDets M (detections.map (·.bbox)) (ts, count)
  else (ts, count)

/-- The prune phase of `ByteTrack.update`: keep the trackers with
`time_since_update <= max_age`. -/
def pruneStage (max_age : ℤ) (ts : List (KalmanBoxTracker κ)) :
    List (KalmanBoxTracker κ) :=
  ts.filter (fun t => decide ((t.time_since_update : ℤ) ≤ max_age))

/-- The emission guard of `ByteTrack.update`:
`tracker.hit_streak >= self.min_hits or self.frame_count <= self.min_hits`. -/
def emitGuard (min_hits frame_count : ℕ) (t : KalmanBoxTracker κ) : Bool :=
  decide (min_hits ≤ t.hit_streak) || decide (frame_count ≤ min_hits)

/-- The confidence back-fill of the emit phase: the confidence of the first
detection of the current frame whose IoU with the given box exceeds the
hard-coded `0.3`, and the neutral `0.5` when there is none. -/
def confFor (dets : List Detection) (b : Box) : ℚ :=
  match dets.find? (fun det => decide ((3 : ℚ) / 10 < iou b det.bbox)) with
  | some det => det.confidence
  | none => 1 / 2

/-- One emitted dictionary of `ByteTrack.update`: the box as truncated
integers, `tracking_id = id + 1`, the backfilled confidence and the constant
class. -/
def emitTrack (dets : List Detection) (t : KalmanBoxTracker κ) : TrackedObject :=
  ⟨(pyInt t.get_state.x1, pyInt t.get_state.y1, pyInt t.get_state.x2, pyInt t.get_state.y2),
    t.id + 1, confFor dets t.get_state, "person"⟩

/-- The emit phase of `ByteTrack.update`: every surviving tracker passing the
emission guard, in list order. -/
def emitStage (min_hits frame_count : ℕ) (dets : List Detection)
    (ts : List (KalmanBoxTracker κ)) : List TrackedObject :=
  (ts.filter (emitGuard min_hits frame_count)).map (emitTrack dets)

/-- `ByteTrack.update(detections)`: increment `frame_count`, predict and
drop NaN trackers, match/update/spawn, prune stale trackers, and emit the
confirmed tracks.  Returns the emitted list, the new orchestrator state and
the new value of the class-level id counter. -/
def ByteTrack.update (M : KFModel κ) (s : ByteTrack κ) (count : ℕ)
    (detections : List Detection) :
    List TrackedObject × ByteTrack κ × ℕ :=
  (emitStage s.min_hits (s.frame_count + 1) detections
      (pruneStage s.max_age
        (associateStage M s.iou_threshold count detections (predictStage M s.trackers)).1),
   { s with
      trackers := pruneStage s.max_age
        (associateStage M s.iou_threshold count detections (predictStage M s.trackers)).1
      frame_count := s.frame_count + 1 },
   (associateStage M s.iou_threshold count detections (predictStage M s.trackers)).2)

/-- `ByteTrack.reset()`: clear the trackers, reset `frame_count`, and reset
the class-level counter `KalmanBoxTracker.count` to 0 (the returned counter
value). -/
def ByteTrack.reset (s : ByteTrack κ) : ByteTrack κ × ℕ :=
  ({ s with trackers := [], frame_count := 0 }, 0)

/-- Feeding a sequence of frames (detection lists) to the orchestrator,
threading the class-level counter. -/
def runSeq (M : KFModel κ) : List (List Detection) → ByteTrack κ × ℕ → ByteTrack κ × ℕ
  | [], p => p
  | ds :: rest, p => runSeq M rest (ByteTrack.update M p.1 p.2 ds).2

/-- The states of one orchestrator instance on which `reset` is never
called: its construction (at an arbitrary ambient value of the process-global
id counter), its own `update` calls, and arbitrary growth of the global
counter caused by other instances between calls. -/
inductive Reachable (M : KFModel κ) : ByteTrack κ × ℕ → Prop where
  | con (max_age : ℤ) (min_hits : ℕ) (iou_threshold : ℚ) (count : ℕ) :
      Reachable M (ByteTrack.construct max_age min_hits iou_threshold, count)
  | step (p : ByteTrack κ × ℕ) (dets : List Detection) (h : Reachable M p) :
      Reachable M (ByteTrack.update M p.1 p.2 dets).2
  | bump (p : ByteTrack κ × ℕ) (c : ℕ) (h : Reachable M p) (hc : p.2 ≤ c) :
      Reachable M (p.1, c)

/-- A concrete instantiation of the external motion-estimator interface used
to evaluate the theorems on closed inputs: the box estimate stays where it
is under prediction and adopts the measurement under correction, and no
float pathology ever occurs. -/
def stillModel : KFModel Unit where
  hid0 := ()
  kfPredict := fun s => s
  measUpdate := fun _ z => (z, ())
  isnanBox := fun _ => false
  nonfiniteBox := fun _ => false

/-- A concrete instantiation of the external motion-estimator interface in
which every predicted box contains an infinity but no NaN.  This is a real
float behaviour of the source's constant-velocity filter: with a finite
center estimate near the float maximum and a huge estimated velocity, the
predicted center overflows to `+inf` while the size stays finite, so the
converted corner box contains `inf` entries and `np.isnan` is false on all
of them. -/
def infModel : KFModel Unit where
  hid0 := ()
  kfPredict := fun s => s
  measUpdate := fun _ z => (z, ())
  isnanBox := fun _ => false
  nonfiniteBox := fun _ => true

/-- A concrete instantiation of the external motion-estimator interface in
which every predicted box contains a NaN entry. -/
def nanModel : KFModel Unit where
  hid0 := ()
  kfPredict := fun s => s
  measUpdate := fun _ z => (z, ())
  isnanBox := fun _ => true
  nonfiniteBox := fun _ => true

/-- A fixed concrete detection used when evaluating the theorems on closed
inputs. -/
def dEx : Detection := ⟨⟨0, 0, 10, 10⟩, 9 / 10⟩

/-- A freshly constructed orchestrator with the source's default
configuration (`max_age=30`, `min_hits=3`, `iou_threshold=0.3`). -/
def sEx : ByteTrack Unit := ByteTrack.construct 30 3 (3 / 10)

theorem interArea_nonneg (a b : Box) : 0 ≤ interArea a b :=
  mul_nonneg (le_max_left _ _) (le_max_left _ _)

theorem interArea_le_left (a b : Box) (ha : WellFormed a) :
    interArea a b ≤ boxArea a := by
  obtain ⟨hx, hy⟩ := ha
  have h1 : max 0 (min a.x2 b.x2 - max a.x1 b.x1) ≤ a.x2 - a.x1 := by
    apply max_le (by linarith)
    have := min_le_left a.x2 b.x2
    have := le_max_left a.x1 b.x1
    linarith
  have h2 : max 0 (min a.y2 b.y2 - max a.y1 b.y1) ≤ a.y2 - a.y1 := by
    apply max_le (by linarith)
    have := min_le_left a.y2 b.y2
    have := le_max_left a.y1 b.y1
    linarith
  exact mul_le_mul h1 h2 (le_max_left _ _) (by linarith)

theorem interArea_comm (a b : Box) : interArea a b = interArea b a := by
  unfold interArea
  rw [min_comm a.x2 b.x2, max_comm a.x1 b.x1, min_comm a.y2 b.y2, max_comm a.y1 b.y1]

theorem unionArea_comm (a b : Box) : unionArea a b = unionArea b a := by
  unfold unionArea
  rw [interArea_comm]
  ring

theorem interArea_le_right (a b : Box) (hb : WellFormed b) :
    interArea a b ≤ boxArea b := by
  rw [interArea_comm]
  exact interArea_le_left b a hb

theorem boxArea_pos (a : Box) (ha : WellFormed a) : 0 < boxArea a :=
  mul_pos (by linarith [ha.1]) (by linarith [ha.2])

theorem unionArea_pos (a b : Box) (ha : WellFormed a) (hb : WellFormed b) :
    0 < unionArea a b := by
  have h1 := interArea_le_right a b hb
  have h2 := boxArea_pos a ha
  unfold unionArea
  linarith

theorem predict_id (M : KFModel κ) (t : KalmanBoxTracker κ) :
    (KalmanBoxTracker.predict M t).1.id = t.id := rfl

theorem predict_hits (M : KFModel κ) (t : KalmanBoxTracker κ) :
    (KalmanBoxTracker.predict M t).1.hits = t.hits := rfl

theorem predict_tsu (M : KFModel κ) (t : KalmanBoxTracker κ) :
    (KalmanBoxTracker.predict M t).1.time_since_update = t.time_since_update + 1 := rfl

theorem predict_hit_streak (M : KFModel κ) (t : KalmanBoxTracker κ) :
    (KalmanBoxTracker.predict M t).1.hit_streak =
      if 0 < t.time_since_update then 0 else t.hit_streak := rfl

theorem update_id (M : KFModel κ) (t : KalmanBoxTracker κ) (b : Box) :
    (KalmanBoxTracker.update M t b).id = t.id := rfl

theorem create_fields (M : KFModel κ) (b : Box) (c : ℕ) :
    (KalmanBoxTracker.create M b c).1.id = c ∧
    (KalmanBoxTracker.create M b c).1.hits = 0 ∧
    (KalmanBoxTracker.create M b c).1.hit_streak = 0 ∧
    (KalmanBoxTracker.create M b c).1.time_since_update = 0 ∧
    (KalmanBoxTracker.create M b c).2 = c + 1 :=
  ⟨rfl, rfl, rfl, rfl, rfl⟩

theorem modifyAt_map (g : α → β) (f : α → α) (hf : ∀ x, g (f x) = g x) :
    ∀ (l : List α) (n : ℕ), (modifyAt l n f).map g = l.map g := by
  intro l
  induction l with
  | nil => intro n; cases n <;> rfl
  | cons x xs ih =>
      intro n
      cases n with
      | zero => simp [modifyAt, hf]
      | succ n => simp only [modifyAt, List.map_cons, ih]

theorem foldl_inv {α β : Type _} {P : β → Prop} {f : β → α → β}
    (h : ∀ b a, P b → P (f b a)) :
    ∀ (l : List α) (b : β), P b → P (l.foldl f b) := by
  intro l
  induction l with
  | nil => intro b hb; exact hb
  | cons x xs ih => intro b hb; exact ih (f b x) (h b x hb)

theorem updateMatched_map_id (M : KFModel κ) (bs : List Box)
    (ts : List (KalmanBoxTracker κ)) (ms : List (ℕ × ℕ)) :
    (updateMatched M bs ts ms).map (·.id) = ts.map (·.id) := by
  unfold updateMatched
  refine foldl_inv (P := fun l : List (KalmanBoxTracker κ) => l.map (·.id) = ts.map (·.id))
    ?_ ms ts rfl
  intro l m hl
  show (modifyAt l m.2
      (fun tr => KalmanBoxTracker.update M tr (bs.getD m.1 ⟨0, 0, 0, 0⟩))).map (·.id) =
    ts.map (·.id)
  rw [modifyAt_map]
  · exact hl
  · intro x
    exact update_id M x _

/-- The id-related invariant of one orchestrator instance: live ids strictly
increase along the tracker list and every live id is below the global
counter. -/
def IdInv (p : List (KalmanBoxTracker κ) × ℕ) : Prop :=
  (p.1.map (·.id)).Pairwise (· < ·) ∧ ∀ t ∈ p.1, t.id < p.2

theorem spawnOne_idInv (M : KFModel κ) (b : Box) (p : List (KalmanBoxTracker κ) × ℕ)
    (h : IdInv p) : IdInv (spawnOne M b p) := by
  obtain ⟨h1, h2⟩ := h
  constructor
  · simp only [spawnOne, List.map_append, List.map_cons, List.map_nil]
    rw [List.pairwise_append]
    refine ⟨h1, List.pairwise_singleton _ _, ?_⟩
    intro a ha b hb
    simp only [List.mem_map] at ha
    obtain ⟨t, ht, rfl⟩ := ha
    simp only [List.mem_singleton] at hb
    subst hb
    exact h2 t ht
  · intro t ht
    simp only [spawnOne, List.mem_append, List.mem_singleton] at ht
    rcases ht with ht | rfl
    · exact Nat.lt_succ_of_lt (h2 t ht)
    · exact Nat.lt_succ_self _

theorem spawnNew_idInv (M : KFModel κ) (bs : List Box) (md : List ℕ)
    (p : List (KalmanBoxTracker κ) × ℕ) (h : IdInv p) : IdInv (spawnNew M bs md p) := by
  unfold spawnNew
  refine foldl_inv (P := fun q => IdInv q) ?_ _ p h
  intro q i hq
  by_cases hi : i ∈ md
  · simpa [hi] using hq
  · simpa [hi] using spawnOne_idInv M _ q hq

theorem spawnAllDets_idInv (M : KFModel κ) (bs : List Box)
    (p : List (KalmanBoxTracker κ) × ℕ) (h : IdInv p) : IdInv (spawnAllDets M bs p) := by
  unfold spawnAllDets
  exact foldl_inv (fun q b hq => spawnOne_idInv M b q hq) bs p h

theorem associate_idInv (M : KFModel κ) (th : ℚ) (c : ℕ) (dets : List Detection)
    (ts : List (KalmanBoxTracker κ)) (h : IdInv (ts, c)) :
    IdInv (associateStage M th c dets ts) := by
  unfold associateStage
  split
  · split
    · apply spawnNew_idInv
      constructor
      · rw [updateMatched_map_id]
        exact h.1
      · intro t ht
        have hmap : t.id ∈ (updateMatched M (dets.map (·.bbox)) ts _).map (·.id) :=
          List.mem_map_of_mem (·.id) ht
        rw [updateMatched_map_id] at hmap
        obtain ⟨t0, ht0, hid⟩ := List.mem_map.1 hmap
        rw [← hid]
        exact h.2 t0 ht0
    · exact spawnAllDets_idInv M _ _ h
  · exact h

theorem mem_predictStage (M : KFModel κ) (ts : List (KalmanBoxTracker κ))
    (t' : KalmanBoxTracker κ) (h : t' ∈ predictStage M ts) :
    (∃ t ∈ ts, t' = (KalmanBoxTracker.predict M t).1) ∧ M.isnanBox t'.state = false := by
  unfold predictStage at h
  obtain ⟨hmem, hflag⟩ := List.mem_filter.1 h
  obtain ⟨t, ht, rfl⟩ := List.mem_map.1 hmem
  refine ⟨⟨t, ht, rfl⟩, ?_⟩
  simpa using hflag

theorem predictStage_map_id (M : KFModel κ) (ts : List (KalmanBoxTracker κ)) :
    List.Sublist ((predictStage M ts).map (·.id)) (ts.map (·.id)) := by
  unfold predictStage
  have h1 : List.Sublist
      (((ts.map (fun t => (KalmanBoxTracker.predict M t).1)).filter
        (fun t => ! M.isnanBox t.state)).map (·.id))
      ((ts.map (fun t => (KalmanBoxTracker.predict M t).1)).map (·.id)) :=
    (List.filter_sublist _).map _
  have h2 : (ts.map (fun t => (KalmanBoxTracker.predict M t).1)).map (·.id) =
      ts.map (·.id) := by
    rw [List.map_map]
    rfl
  rwa [h2] at h1

theorem pruneStage_sublist (a : ℤ) (ts : List (KalmanBoxTracker κ)) :
    List.Sublist (pruneStage a ts) ts := List.filter_sublist _

theorem mem_pruneStage (a : ℤ) (ts : List (KalmanBoxTracker κ)) (t : KalmanBoxTracker κ) :
    t ∈ pruneStage a ts ↔ t ∈ ts ∧ (t.time_since_update : ℤ) ≤ a := by
  unfold pruneStage
  rw [List.mem_filter]
  simp

theorem update_trackers_eq (M : KFModel κ) (s : ByteTrack κ) (c : ℕ) (dets : List Detection) :
    (ByteTrack.update M s c dets).2.1.trackers =
      pruneStage s.max_age (associateStage M s.iou_threshold c dets (predictStage M s.trackers)).1 :=
  rfl

theorem update_out_eq (M : KFModel κ) (s : ByteTrack κ) (c : ℕ) (dets : List Detection) :
    (ByteTrack.update M s c dets).1 =
      emitStage s.min_hits (s.frame_count + 1) dets (ByteTrack.update M s c dets).2.1.trackers :=
  rfl

theorem update_count_eq (M : KFModel κ) (s : ByteTrack κ) (c : ℕ) (dets : List Detection) :
    (ByteTrack.update M s c dets).2.2 =
      (associateStage M s.iou_threshold c dets (predictStage M s.trackers)).2 :=
  rfl

theorem update_config (M : KFModel κ) (s : ByteTrack κ) (c : ℕ) (dets : List Detection) :
    (ByteTrack.update M s c dets).2.1.max_age = s.max_age ∧
    (ByteTrack.update M s c dets).2.1.min_hits = s.min_hits ∧
    (ByteTrack.update M s c dets).2.1.iou_threshold = s.iou_threshold ∧
    (ByteTrack.update M s c dets).2.1.frame_count = s.frame_count + 1 :=
  ⟨rfl, rfl, rfl, rfl⟩

theorem spawnOne_count_le (M : KFModel κ) (b : Box) (p : List (KalmanBoxTracker κ) × ℕ) :
    p.2 ≤ (spawnOne M b p).2 := Nat.le_succ _

theorem spawnNew_count_le (M : KFModel κ) (bs : List Box) (md : List ℕ)
    (l : List (KalmanBoxTracker κ)) (c : ℕ) : c ≤ (spawnNew M bs md (l, c)).2 := by
  unfold spawnNew
  refine foldl_inv (P := fun q : List (KalmanBoxTracker κ) × ℕ => c ≤ q.2) ?_ _ _ le_rfl
  intro q i hq
  dsimp only
  split
  · exact hq
  · exact le_trans hq (spawnOne_count_le M _ q)

theorem spawnAllDets_count_le (M : KFModel κ) (bs : List Box)
    (l : List (KalmanBoxTracker κ)) (c : ℕ) : c ≤ (spawnAllDets M bs (l, c)).2 := by
  unfold spawnAllDets
  refine foldl_inv (P := fun q : List (KalmanBoxTracker κ) × ℕ => c ≤ q.2) ?_ _ _ le_rfl
  intro q b hq
  exact le_trans hq (spawnOne_count_le M b q)

theorem associate_count_le (M : KFModel κ) (th : ℚ) (c : ℕ) (dets : List Detection)
    (ts : List (KalmanBoxTracker κ)) : c ≤ (associateStage M th c dets ts).2 := by
  unfold associateStage
  split
  · split
    · dsimp only
      exact spawnNew_count_le M _ _ _ c
    · exact spawnAllDets_count_le M _ _ c
  · exact le_rfl

theorem update_count_le (M : KFModel κ) (s : ByteTrack κ) (c : ℕ) (dets : List Detection) :
    c ≤ (ByteTrack.update M s c dets).2.2 := by
  rw [update_count_eq]
  exact associate_count_le M _ c dets _

theorem update_idInv (M : KFModel κ) (s : ByteTrack κ) (c : ℕ) (dets : List Detection)
    (h : IdInv (s.trackers, c)) :
    IdInv ((ByteTrack.update M s c dets).2.1.trackers, (ByteTrack.update M s c dets).2.2) := by
  have hpre : IdInv (predictStage M s.trackers, c) := by
    constructor
    · exact (h.1.sublist (predictStage_map_id M s.trackers))
    · intro t ht
      obtain ⟨⟨t0, ht0, rfl⟩, _⟩ := mem_predictStage M s.trackers t ht
      rw [predict_id]
      exact h.2 t0 ht0
  have hassoc := associate_idInv M s.iou_threshold c dets (predictStage M s.trackers) hpre
  rw [update_trackers_eq, update_count_eq]
  constructor
  · exact hassoc.1.sublist ((pruneStage_sublist _ _).map _)
  · intro t ht
    exact hassoc.2 t ((mem_pruneStage _ _ t).1 ht).1

theorem reachable_idInv (M : KFModel κ) (p : ByteTrack κ × ℕ) (h : Reachable M p) :
    IdInv (p.1.trackers, p.2) := by
  induction h with
  | con a mh th c => exact ⟨List.Pairwise.nil, by intro t ht; simp [ByteTrack.construct] at ht⟩
  | step q dets hq ih => exact update_idInv M q.1 q.2 dets ih
  | bump q c hq hc ih =>
      exact ⟨ih.1, fun t ht => lt_of_lt_of_le (ih.2 t ht) hc⟩

theorem spawnOne_members (M : KFModel κ) (c : ℕ) (Q : KalmanBoxTracker κ → Prop)
    (hnew : ∀ b cnt, c ≤ cnt → Q (KalmanBoxTracker.create M b cnt).1)
    (b : Box) (q : List (KalmanBoxTracker κ) × ℕ)
    (h : (∀ t ∈ q.1, Q t) ∧ c ≤ q.2) :
    (∀ t ∈ (spawnOne M b q).1, Q t) ∧ c ≤ (spawnOne M b q).2 := by
  constructor
  · intro t ht
    simp only [spawnOne, List.mem_append, List.mem_singleton] at ht
    rcases ht with ht | rfl
    · exact h.1 t ht
    · exact hnew b q.2 h.2
  · exact le_trans h.2 (spawnOne_count_le M b q)

theorem spawnNewFold_members (M : KFModel κ) (c : ℕ) {Q : KalmanBoxTracker κ → Prop}
    (hnew : ∀ b cnt, c ≤ cnt → Q (KalmanBoxTracker.create M b cnt).1)
    (bs : List Box) (md : List ℕ) :
    ∀ (idxs : List ℕ) (q : List (KalmanBoxTracker κ) × ℕ),
      (∀ t ∈ q.1, Q t) → c ≤ q.2 →
      (∀ t ∈ (idxs.foldl
          (fun r i => if i ∈ md then r else spawnOne M (bs.getD i ⟨0, 0, 0, 0⟩) r) q).1, Q t) ∧
      c ≤ (idxs.foldl
          (fun r i => if i ∈ md then r else spawnOne M (bs.getD i ⟨0, 0, 0, 0⟩) r) q).2 := by
  intro idxs
  induction idxs with
  | nil => intro q h1 h2; exact ⟨h1, h2⟩
  | cons i rest ih =>
      intro q h1 h2
      rw [List.foldl_cons]
      by_cases hi : i ∈ md
      · rw [if_pos hi]
        exact ih q h1 h2
      · rw [if_neg hi]
        have h3 := spawnOne_members M c Q hnew (bs.getD i ⟨0, 0, 0, 0⟩) q ⟨h1, h2⟩
        exact ih _ h3.1 h3.2

theorem spawnNew_members (M : KFModel κ) (c : ℕ) {Q : KalmanBoxTracker κ → Prop}
    (hnew : ∀ b cnt, c ≤ cnt → Q (KalmanBoxTracker.create M b cnt).1)
    (bs : List Box) (md : List ℕ) (l : List (KalmanBoxTracker κ))
    (hbase : ∀ t ∈ l, Q t) : ∀ t ∈ (spawnNew M bs md (l, c)).1, Q t := by
  unfold spawnNew
  exact (spawnNewFold_members M c hnew bs md (List.range bs.length) (l, c) hbase le_rfl).1

theorem spawnAllDets_members (M : KFModel κ) (c : ℕ) {Q : KalmanBoxTracker κ → Prop}
    (hnew : ∀ b cnt, c ≤ cnt → Q (KalmanBoxTracker.create M b cnt).1) :
    ∀ (bs : List Box) (q : List (KalmanBoxTracker κ) × ℕ),
      (∀ t ∈ q.1, Q t) → c ≤ q.2 →
      (∀ t ∈ (spawnAllDets M bs q).1, Q t) ∧ c ≤ (spawnAllDets M bs q).2 := by
  intro bs
  induction bs with
  | nil => intro q h1 h2; exact ⟨h1, h2⟩
  | cons b rest ih =>
      intro q h1 h2
      have h3 := spawnOne_members M c Q hnew b q ⟨h1, h2⟩
      unfold spawnAllDets
      rw [List.foldl_cons]
      exact ih _ h3.1 h3.2

theorem associate_members (M : KFModel κ) (th : ℚ) (c : ℕ) (dets : List Detection)
    (ts : List (KalmanBoxTracker κ)) (Q : KalmanBoxTracker κ → Prop)
    (hnew : ∀ b cnt, c ≤ cnt → Q (KalmanBoxTracker.create M b cnt).1)
    (hold : ∀ t' : KalmanBoxTracker κ, t'.id ∈ ts.map (·.id) → Q t') :
    ∀ t' ∈ (associateStage M th c dets ts).1, Q t' := by
  have hts : ∀ t ∈ ts, Q t := fun t ht => hold t (List.mem_map_of_mem (·.id) ht)
  unfold associateStage
  split
  · split
    · dsimp only
      intro t' ht'
      refine spawnNew_members M c hnew _ _ _ ?_ t' ht'
      intro t ht
      have hmem : t.id ∈ (updateMatched M (dets.map (·.bbox)) ts _).map (·.id) :=
        List.mem_map_of_mem (·.id) ht
      rw [updateMatched_map_id] at hmem
      exact hold t hmem
    · intro t' ht'
      exact (spawnAllDets_members M c hnew (dets.map (·.bbox)) (ts, c) hts le_rfl).1 t' ht'
  · exact hts

theorem update_members (M : KFModel κ) (s : ByteTrack κ) (c : ℕ) (dets : List Detection)
    (Q : KalmanBoxTracker κ → Prop)
    (hnew : ∀ b cnt, c ≤ cnt → Q (KalmanBoxTracker.create M b cnt).1)
    (hold : ∀ t' : KalmanBoxTracker κ,
      t'.id ∈ (predictStage M s.trackers).map (·.id) → Q t') :
    ∀ t' ∈ (ByteTrack.update M s c dets).2.1.trackers, Q t' := by
  intro t' ht'
  rw [update_trackers_eq] at ht'
  have h2 := ((mem_pruneStage _ _ _).1 ht').1
  exact associate_members M s.iou_threshold c dets (predictStage M s.trackers) Q hnew hold t' h2

theorem associate_nil (M : KFModel κ) (th : ℚ) (c : ℕ) (ts : List (KalmanBoxTracker κ)) :
    associateStage M th c [] ts = (ts, c) := rfl

theorem update_nil_members (M : KFModel κ) (s : ByteTrack κ) (c : ℕ)
    (t' : KalmanBoxTracker κ) (h : t' ∈ (ByteTrack.update M s c []).2.1.trackers) :
    (∃ t ∈ s.trackers, t'.time_since_update = t.time_since_update + 1) ∧
    (t'.time_since_update : ℤ) ≤ s.max_age := by
  rw [update_trackers_eq, associate_nil] at h
  obtain ⟨hmem, hage⟩ := (mem_pruneStage _ _ _).1 h
  obtain ⟨⟨t, ht, rfl⟩, _⟩ := mem_predictStage M s.trackers t' hmem
  exact ⟨⟨t, ht, predict_tsu M t⟩, hage⟩

theorem runSeq_config (M : KFModel κ) :
    ∀ (dss : List (List Detection)) (p : ByteTrack κ × ℕ),
      (runSeq M dss p).1.max_age = p.1.max_age ∧
      (runSeq M dss p).1.min_hits = p.1.min_hits ∧
      (runSeq M dss p).1.iou_threshold = p.1.iou_threshold ∧
      p.2 ≤ (runSeq M dss p).2 := by
  intro dss
  induction dss with
  | nil => intro p; exact ⟨rfl, rfl, rfl, le_rfl⟩
  | cons ds rest ih =>
      intro p
      have h1 := ih (ByteTrack.update M p.1 p.2 ds).2
      have h2 := update_config M p.1 p.2 ds
      refine ⟨?_, ?_, ?_, ?_⟩
      · rw [runSeq, h1.1, h2.1]
      · rw [runSeq, h1.2.1, h2.2.1]
      · rw [runSeq, h1.2.2.1, h2.2.2.1]
      · rw [runSeq]
        exact le_trans (update_count_le M p.1 p.2 ds) h1.2.2.2

theorem runSeq_nil_tsu_ge (M : KFModel κ) :
    ∀ (k : ℕ) (p : ByteTrack κ × ℕ),
      ∀ t ∈ (runSeq M (List.replicate k []) p).1.trackers,
        ∃ t0 ∈ p.1.trackers, t.time_since_update = t0.time_since_update + k := by
  intro k
  induction k with
  | zero =>
      intro p t ht
      exact ⟨t, ht, rfl⟩
  | succ k ih =>
      intro p t ht
      rw [List.replicate_succ, runSeq] at ht
      obtain ⟨t1, ht1, heq⟩ := ih (ByteTrack.update M p.1 p.2 []).2 t ht
      obtain ⟨⟨t0, ht0, heq0⟩, _⟩ := update_nil_members M p.1 p.2 t1 ht1
      exact ⟨t0, ht0, by omega⟩

theorem runSeq_nil_tsu_le (M : KFModel κ) :
    ∀ (k : ℕ) (p : ByteTrack κ × ℕ),
      ∀ t ∈ (runSeq M (List.replicate (k + 1) []) p).1.trackers,
        (t.time_since_update : ℤ) ≤ p.1.max_age := by
  intro k
  induction k with
  | zero =>
      intro p t ht
      rw [List.replicate_succ, runSeq] at ht
      simp only [List.replicate, runSeq] at ht
      exact (update_nil_members M p.1 p.2 t ht).2
  | succ k ih =>
      intro p t ht
      rw [List.replicate_succ, runSeq] at ht
      have := ih (ByteTrack.update M p.1 p.2 []).2 t ht
      rwa [(update_config M p.1 p.2 []).1] at this

theorem runSeq_nil_empty (M : KFModel κ) (p : ByteTrack κ × ℕ) (k : ℕ)
    (hk : (p.1.max_age + 1).toNat = k) (hage : 0 ≤ p.1.max_age) :
    (runSeq M (List.replicate k []) p).1.trackers = [] := by
  rw [List.eq_nil_iff_forall_not_mem]
  intro t ht
  obtain ⟨k', rfl⟩ : ∃ k', k = k' + 1 := by
    refine ⟨k - 1, ?_⟩
    omega
  obtain ⟨t0, _, heq⟩ := runSeq_nil_tsu_ge M (k' + 1) p t ht
  have hle := runSeq_nil_tsu_le M k' p t ht
  omega

theorem allMatchings_full :
    ∀ (ds ts : List ℕ), ∃ m ∈ allMatchings ds ts, m.length = min ds.length ts.length := by
  intro ds
  induction ds with
  | nil =>
      intro ts
      exact ⟨[], by simp [allMatchings], by simp⟩
  | cons d ds ih =>
      intro ts
      cases ts with
      | nil =>
          obtain ⟨m, hm, hlen⟩ := ih []
          refine ⟨m, ?_, by simpa using hlen⟩
          unfold allMatchings
          simp only [List.flatMap_nil, List.append_nil]
          exact hm
      | cons t ts' =>
          obtain ⟨m, hm, hlen⟩ := ih ts'
          refine ⟨(d, t) :: m, ?_, ?_⟩
          · unfold allMatchings
            rw [List.mem_append]
            right
            rw [List.mem_flatMap]
            refine ⟨t, List.mem_cons_self t ts', ?_⟩
            rw [List.erase_cons_head]
            exact List.mem_map_of_mem _ hm
          · simp only [List.length_cons, hlen]
            omega

theorem matchCandidates_ne_nil (D T : ℕ) : matchCandidates D T ≠ [] := by
  obtain ⟨m, hm, hlen⟩ := allMatchings_full (List.range D) (List.range T)
  have hmem : m ∈ matchCandidates D T := by
    unfold matchCandidates
    rw [List.mem_filter]
    refine ⟨hm, ?_⟩
    simp only [List.length_range] at hlen
    simp [hlen]
  intro h
  rw [h] at hmem
  exact List.not_mem_nil m hmem

theorem foldl_argmax (f : List (ℕ × ℕ) → ℚ) :
    ∀ (cs : List (List (ℕ × ℕ))) (c : List (ℕ × ℕ)),
      (cs.foldl (fun best m => if f best < f m then m else best) c) ∈ c :: cs ∧
      ∀ m ∈ c :: cs, f m ≤ f (cs.foldl (fun best m => if f best < f m then m else best) c) := by
  intro cs
  induction cs with
  | nil =>
      intro c
      refine ⟨List.mem_singleton_self c, ?_⟩
      intro m hm
      rw [List.mem_singleton] at hm
      subst hm
      exact le_rfl
  | cons x xs ih =>
      intro c
      rw [List.foldl_cons]
      obtain ⟨hmem, hmax⟩ := ih (if f c < f x then x else c)
      constructor
      · rcases List.mem_cons.1 hmem with h | h
        · rw [h]
          split
          · exact List.mem_cons_of_mem c (List.mem_cons_self x xs)
          · exact List.mem_cons_self c (x :: xs)
        · exact List.mem_cons_of_mem c (List.mem_cons_of_mem x h)
      · intro m hm
        have hacc : f (if f c < f x then x else c) ≤
            f (xs.foldl (fun best m => if f best < f m then m else best)
              (if f c < f x then x else c)) :=
          hmax _ (List.mem_cons_self _ _)
        rcases List.mem_cons.1 hm with rfl | hm'
        · refine le_trans ?_ hacc
          split
          · exact le_of_lt (by assumption)
          · exact le_rfl
        · rcases List.mem_cons.1 hm' with rfl | hm''
          · refine le_trans ?_ hacc
            split
            · exact le_rfl
            · exact le_of_not_lt (by assumption)
          · exact hmax m (List.mem_cons_of_mem _ hm'')

theorem lsaMax_spec (score : ℕ → ℕ → ℚ) (D T : ℕ) :
    lsaMax score D T ∈ matchCandidates D T ∧
    ∀ m ∈ matchCandidates D T, totalScore score m ≤ totalScore score (lsaMax score D T) := by
  rcases h : matchCandidates D T with _ | ⟨c, cs⟩
  · exact absurd h (matchCandidates_ne_nil D T)
  · have h2 : lsaMax score D T =
        cs.foldl (fun best m => if totalScore score best < totalScore score m then m else best) c := by
      unfold lsaMax
      rw [h]
    rw [h2]
    exact foldl_argmax (totalScore score) cs c

theorem mem_emitStage (mh fc : ℕ) (dets : List Detection)
    (ts : List (KalmanBoxTracker κ)) (o : TrackedObject) :
    o ∈ emitStage mh fc dets ts ↔
      ∃ t ∈ ts, (mh ≤ t.hit_streak ∨ fc ≤ mh) ∧ o = emitTrack dets t := by
  unfold emitStage
  constructor
  · intro h
    obtain ⟨t, htf, rfl⟩ := List.mem_map.1 h
    obtain ⟨ht, hg⟩ := List.mem_filter.1 htf
    refine ⟨t, ht, ?_, rfl⟩
    simpa [emitGuard] using hg
  · rintro ⟨t, ht, hg, rfl⟩
    refine List.mem_map.2 ⟨t, List.mem_filter.2 ⟨ht, ?_⟩, rfl⟩
    simpa [emitGuard] using hg

theorem confFor_structure (dets : List Detection) (b : Box) :
    ((∀ d ∈ dets, iou b d.bbox ≤ 3 / 10) ∧ confFor dets b = 1 / 2) ∨
    (∃ pre d rest, dets = pre ++ d :: rest ∧ (∀ d' ∈ pre, iou b d'.bbox ≤ 3 / 10) ∧
      3 / 10 < iou b d.bbox ∧ confFor dets b = d.confidence) := by
  induction dets with
  | nil => exact Or.inl ⟨by simp, rfl⟩
  | cons d ds ih =>
      by_cases h : (3 : ℚ) / 10 < iou b d.bbox
      · right
        exact ⟨[], d, ds, rfl, by simp, h, by simp [confFor, List.find?_cons, h]⟩
      · have hcf : confFor (d :: ds) b = confFor ds b := by
          simp [confFor, List.find?_cons, h]
        rcases ih with ⟨hall, hc⟩ | ⟨pre, d', rest, heq, hpre, hd', hc⟩
        · left
          refine ⟨?_, by rw [hcf]; exact hc⟩
          intro x hx
          rcases List.mem_cons.1 hx with rfl | hx'
          · exact le_of_not_lt h
          · exact hall x hx'
        · right
          refine ⟨d :: pre, d', rest, by rw [heq, List.cons_append], ?_, hd',
            by rw [hcf]; exact hc⟩
          intro x hx
          rcases List.mem_cons.1 hx with rfl | hx'
          · exact le_of_not_lt h
          · exact hpre x hx'

theorem emitTrack_fields (dets : List Detection) (t : KalmanBoxTracker κ) :
    (emitTrack dets t).tracking_id = t.id + 1 ∧
    (emitTrack dets t).confidence = confFor dets t.get_state :=
  ⟨rfl, rfl⟩

theorem interArea_self (b : Box) (hb : WellFormed b) : interArea b b = boxArea b := by
  unfold interArea boxArea
  rw [min_self, max_self, min_self, max_self,
    max_eq_right (by linarith [hb.1] : (0 : ℚ) ≤ b.x2 - b.x1),
    max_eq_right (by linarith [hb.2] : (0 : ℚ) ≤ b.y2 - b.y1)]

theorem interArea_disjoint (a b : Box) (h : DisjointBoxes a b) : interArea a b = 0 := by
  unfold interArea
  rcases h with h | h | h | h
  · have hx : min a.x2 b.x2 - max a.x1 b.x1 ≤ 0 := by
      have h1 := min_le_left a.x2 b.x2
      have h2 := le_max_right a.x1 b.x1
      linarith
    rw [max_eq_left hx, zero_mul]
  · have hx : min a.x2 b.x2 - max a.x1 b.x1 ≤ 0 := by
      have h1 := min_le_right a.x2 b.x2
      have h2 := le_max_left a.x1 b.x1
      linarith
    rw [max_eq_left hx, zero_mul]
  · have hy : min a.y2 b.y2 - max a.y1 b.y1 ≤ 0 := by
      have h1 := min_le_left a.y2 b.y2
      have h2 := le_max_right a.y1 b.y1
      linarith
    rw [max_eq_left hy, mul_zero]
  · have hy : min a.y2 b.y2 - max a.y1 b.y1 ≤ 0 := by
      have h1 := min_le_right a.y2 b.y2
      have h2 := le_max_left a.y1 b.y1
      linarith
    rw [max_eq_left hy, mul_zero]

/-- C9: for well-formed axis-aligned boxes (`x2 > x1`, `y2 > y1`) the source
`iou` is symmetric, equals 1 on identical boxes, equals 0 on disjoint boxes,
always lies in `[0, 1]`, and returns 0 whenever the union area is 0. -/
theorem C9_iou_properties :
    (∀ a b : Box, iou a b = iou b a) ∧
    (∀ b : Box, WellFormed b → iou b b = 1) ∧
    (∀ a b : Box, WellFormed a → WellFormed b → DisjointBoxes a b → iou a b = 0) ∧
    (∀ a b : Box, WellFormed a → WellFormed b → 0 ≤ iou a b ∧ iou a b ≤ 1) ∧
    (∀ a b : Box, unionArea a b = 0 → iou a b = 0) := by
  refine ⟨?_, ?_, ?_, ?_, ?_⟩
  · intro a b
    unfold iou
    rw [interArea_comm, unionArea_comm]
  · intro b hb
    have h1 : unionArea b b = boxArea b := by
      unfold unionArea
      rw [interArea_self b hb]
      ring
    unfold iou
    rw [h1, interArea_self b hb, if_pos (boxArea_pos b hb)]
    exact div_self (ne_of_gt (boxArea_pos b hb))
  · intro a b ha hb hd
    have h0 := interArea_disjoint a b hd
    have hu := unionArea_pos a b ha hb
    unfold iou
    rw [if_pos hu, h0, zero_div]
  · intro a b ha hb
    have hu := unionArea_pos a b ha hb
    have hia := interArea_le_left a b ha
    have hib := interArea_le_right a b hb
    have hi0 := interArea_nonneg a b
    constructor
    · unfold iou
      rw [if_pos hu]
      exact div_nonneg hi0 (le_of_lt hu)
    · unfold iou
      rw [if_pos hu]
      rw [div_le_one hu]
      unfold unionArea at hu ⊢
      linarith
  · intro a b h
    unfold iou
    rw [h]
    simp

/-- C9 witness: the properties evaluated at concrete boxes. -/
theorem C9_iou_properties_witness :
    iou ⟨0, 0, 2, 2⟩ ⟨1, 1, 3, 3⟩ = iou ⟨1, 1, 3, 3⟩ ⟨0, 0, 2, 2⟩ ∧
    iou ⟨0, 0, 2, 2⟩ ⟨0, 0, 2, 2⟩ = 1 ∧
    iou ⟨0, 0, 1, 1⟩ ⟨5, 5, 6, 6⟩ = 0 ∧
    (0 ≤ iou ⟨0, 0, 2, 2⟩ ⟨1, 1, 3, 3⟩ ∧ iou ⟨0, 0, 2, 2⟩ ⟨1, 1, 3, 3⟩ ≤ 1) :=
  ⟨C9_iou_properties.1 _ _,
   C9_iou_properties.2.1 ⟨0, 0, 2, 2⟩ (by constructor <;> norm_num),
   C9_iou_properties.2.2.1 ⟨0, 0, 1, 1⟩ ⟨5, 5, 6, 6⟩ (by constructor <;> norm_num)
     (by constructor <;> norm_num) (Or.inl (by norm_num)),
   C9_iou_properties.2.2.2.1 ⟨0, 0, 2, 2⟩ ⟨1, 1, 3, 3⟩ (by constructor <;> norm_num)
     (by constructor <;> norm_num)⟩

/-- C3: the assignment solver (the model of `scipy.optimize.linear_sum_assignment`
on the negated IoU matrix, as `ByteTrack.update` calls it) returns an optimal
one-to-one pairing maximising total score over the cost matrix, and in the
two-tracks/two-detections case where swapping the pairings strictly lowers
the total it selects the higher-total pairing, not a greedy one. -/
theorem C3_assignment_optimality :
    (∀ (score : ℕ → ℕ → ℚ) (D T : ℕ),
      lsaMax score D T ∈ matchCandidates D T ∧
      ∀ m ∈ matchCandidates D T, totalScore score m ≤ totalScore score (lsaMax score D T)) ∧
    (∀ score : ℕ → ℕ → ℚ, score 0 1 + score 1 0 < score 0 0 + score 1 1 →
      lsaMax score 2 2 = [(0, 0), (1, 1)]) := by
  refine ⟨lsaMax_spec, ?_⟩
  intro score h
  have hc : matchCandidates 2 2 = [[(0, 0), (1, 1)], [(0, 1), (1, 0)]] := by decide
  have h2 : lsaMax score 2 2 =
      if totalScore score [(0, 0), (1, 1)] < totalScore score [(0, 1), (1, 0)]
      then [(0, 1), (1, 0)] else [(0, 0), (1, 1)] := by
    unfold lsaMax
    rw [hc]
    rfl
  rw [h2, if_neg]
  simp only [totalScore, List.map_cons, List.map_nil, List.sum_cons, List.sum_nil]
  intro hlt
  simp only [add_zero] at hlt
  linarith

/-- C3 witness: on a concrete score matrix whose diagonal dominates, the
solver picks the diagonal pairing. -/
theorem C3_assignment_optimality_witness :
    lsaMax (fun d t => if d = t then (1 : ℚ) else 0) 2 2 = [(0, 0), (1, 1)] :=
  C3_assignment_optimality.2 (fun d t => if d = t then (1 : ℚ) else 0) (by norm_num)


/-- C1: in every `update(detections)` call, a live track is included in the
returned list iff `hit_streak >= min_hits` or the incremented `frame_count`
is at most `min_hits`; in particular (second and third conjuncts), with
`min_hits = 3` and an orchestrator already past its first 3 frames, a track
spawned at frame 5 and matched at frames 6, 7 and 8 is absent from the
output at frame 7 (`hit_streak = 2`) and first appears at frame 8
(`hit_streak = 3`). -/
theorem C1_emission_gating :
    (∀ (κ : Type) (M : KFModel κ) (s : ByteTrack κ) (count : ℕ)
       (dets : List Detection) (o : TrackedObject),
      o ∈ (ByteTrack.update M s count dets).1 ↔
        ∃ t ∈ (ByteTrack.update M s count dets).2.1.trackers,
          (s.min_hits ≤ t.hit_streak ∨ s.frame_count + 1 ≤ s.min_hits) ∧
          o = emitTrack dets t) ∧
    (ByteTrack.update stillModel
        (runSeq stillModel [[], [], [], [], [dEx], [dEx]] (sEx, 0)).1
        (runSeq stillModel [[], [], [], [], [dEx], [dEx]] (sEx, 0)).2 [dEx]).1 = [] ∧
    ((ByteTrack.update stillModel
        (runSeq stillModel [[], [], [], [], [dEx], [dEx], [dEx]] (sEx, 0)).1
        (runSeq stillModel [[], [], [], [], [dEx], [dEx], [dEx]] (sEx, 0)).2 [dEx]).1).map
      (·.tracking_id) = [1] := by
  refine ⟨?_, by decide!, by decide!⟩
  intro κ M s count dets o
  rw [update_out_eq]
  exact mem_emitStage s.min_hits (s.frame_count + 1) dets _ o

/-- C1 witness: on a fresh orchestrator (warm-up exception) the spawned
track is emitted in frame 1. -/
theorem C1_emission_gating_witness :
    emitTrack [dEx] (KalmanBoxTracker.create stillModel dEx.bbox 0).1 ∈
      (ByteTrack.update stillModel sEx 0 [dEx]).1 :=
  (C1_emission_gating.1 Unit stillModel sEx 0 [dEx] _).2
    ⟨(KalmanBoxTracker.create stillModel dEx.bbox 0).1, by decide!, Or.inr (by decide),
      rfl⟩

/-- C2: in a single orchestrator instance on which `reset` is never called,
live-track ids are pairwise distinct (strictly increasing in list order),
every live id is below the global id counter (so ids are assigned in
strictly increasing order at creation and never reused after deletion), and
within any single `update` call the emitted `tracking_id` values are
pairwise distinct. -/
theorem C2_id_uniqueness (M : KFModel κ) (p : ByteTrack κ × ℕ) (h : Reachable M p) :
    ((p.1.trackers.map (·.id)).Pairwise (· < ·)) ∧
    (∀ t ∈ p.1.trackers, t.id < p.2) ∧
    (∀ dets : List Detection,
      (((ByteTrack.update M p.1 p.2 dets).1).map (·.tracking_id)).Pairwise (· ≠ ·)) := by
  have hinv := reachable_idInv M p h
  refine ⟨hinv.1, hinv.2, ?_⟩
  intro dets
  have hup := update_idInv M p.1 p.2 dets hinv
  rw [update_out_eq]
  unfold emitStage
  have hsub : List.Sublist
      (((ByteTrack.update M p.1 p.2 dets).2.1.trackers.filter
        (emitGuard p.1.min_hits (p.1.frame_count + 1))).map (·.id))
      ((ByteTrack.update M p.1 p.2 dets).2.1.trackers.map (·.id)) :=
    (List.filter_sublist _).map _
  have hpw := hup.1.sublist hsub
  rw [List.map_map]
  have hcomp : ((·.tracking_id) ∘ emitTrack dets : KalmanBoxTracker κ → ℕ) =
      fun t => t.id + 1 := rfl
  rw [hcomp, List.pairwise_map]
  rw [List.pairwise_map] at hpw
  exact hpw.imp (fun hlt => by omega)

/-- C2 witness: the invariants evaluated on a freshly constructed
orchestrator. -/
theorem C2_id_uniqueness_witness :
    (((ByteTrack.update stillModel sEx 0 [dEx]).1).map (·.tracking_id)).Pairwise (· ≠ ·) :=
  (C2_id_uniqueness stillModel (sEx, 0) (Reachable.con 30 3 (3 / 10) 0)).2.2 [dEx]

/-- C4: every tracker surviving an `update` call satisfies
`time_since_update <= max_age` (a track is pruned exactly when its
staleness exceeds `max_age`); after `max_age + 1` consecutive `update`
calls with no detections the live set is empty (and stays prunable ever
after), and any track spawned by a later `update` carries a strictly
higher id than every track that was alive before. -/
theorem C4_staleness_pruning (M : KFModel κ) (s : ByteTrack κ) (count : ℕ)
    (hage : 0 ≤ s.max_age) (hids : ∀ t ∈ s.trackers, t.id < count) :
    (∀ (dets : List Detection) (t : KalmanBoxTracker κ),
      t ∈ (ByteTrack.update M s count dets).2.1.trackers →
      (t.time_since_update : ℤ) ≤ s.max_age) ∧
    (runSeq M (List.replicate (s.max_age + 1).toNat []) (s, count)).1.trackers = [] ∧
    (∀ (dets : List Detection) (t0 : KalmanBoxTracker κ), t0 ∈ s.trackers →
      ∀ t ∈ (ByteTrack.update M
          (runSeq M (List.replicate (s.max_age + 1).toNat []) (s, count)).1
          (runSeq M (List.replicate (s.max_age + 1).toNat []) (s, count)).2
          dets).2.1.trackers,
        t0.id < t.id) := by
  refine ⟨?_, runSeq_nil_empty M (s, count) _ rfl hage, ?_⟩
  · intro dets t ht
    rw [update_trackers_eq] at ht
    exact ((mem_pruneStage _ _ _).1 ht).2
  · intro dets t0 ht0 t ht
    have hempty := runSeq_nil_empty M (s, count) _ rfl hage
    have hcnt : count ≤ (runSeq M (List.replicate (s.max_age + 1).toNat []) (s, count)).2 :=
      (runSeq_config M _ (s, count)).2.2.2
    have hQ := update_members M
      (runSeq M (List.replicate (s.max_age + 1).toNat []) (s, count)).1
      (runSeq M (List.replicate (s.max_age + 1).toNat []) (s, count)).2 dets
      (fun t' => (runSeq M (List.replicate (s.max_age + 1).toNat []) (s, count)).2 ≤ t'.id)
      (fun b cnt hc => hc)
      (by
        intro t' ht'
        rw [hempty] at ht'
        simp [predictStage] at ht')
      t ht
    have h0 := hids t0 ht0
    omega

/-- C4 witness: a default-configured orchestrator is emptied by 31 silent
frames. -/
theorem C4_staleness_pruning_witness :
    (runSeq stillModel (List.replicate (sEx.max_age + 1).toNat []) (sEx, 0)).1.trackers = [] :=
  (C4_staleness_pruning stillModel sEx 0 (by decide) (by decide)).2.1

/-- C5 (amended): if a track's predicted bounding box contains a NaN entry
during the predict step of `update` (the check `np.any(np.isnan(bbox))` the
source performs), that track is removed within the same `update` call: no
surviving tracker carries its id.  The cycle is a total function — the
numerical failure is never surfaced to the caller as an error.  The claim's
original wording ("non-finite") is refuted by `C5_nonfinite_counterexample`:
an infinite but NaN-free predicted box is not removed. -/
theorem C5_nan_track_removed (M : KFModel κ) (s : ByteTrack κ) (count : ℕ)
    (dets : List Detection)
    (hpw : (s.trackers.map (·.id)).Pairwise (· < ·))
    (hcnt : ∀ t ∈ s.trackers, t.id < count)
    (t : KalmanBoxTracker κ) (ht : t ∈ s.trackers)
    (hnan : M.isnanBox (KalmanBoxTracker.predict M t).1.state = true) :
    ∀ t' ∈ (ByteTrack.update M s count dets).2.1.trackers, t'.id ≠ t.id := by
  have hid : t.id ∉ (predictStage M s.trackers).map (·.id) := by
    intro hmem
    obtain ⟨t', ht', hideq⟩ := List.mem_map.1 hmem
    obtain ⟨⟨u, hu, rfl⟩, hflag⟩ := mem_predictStage M s.trackers t' ht'
    rw [predict_id] at hideq
    have hnodup : (s.trackers.map (·.id)).Nodup := hpw.imp (fun h => ne_of_lt h)
    have hut : u = t := List.inj_on_of_nodup_map hnodup hu ht hideq
    rw [hut, hnan] at hflag
    exact Bool.noConfusion hflag
  intro t' ht'
  refine update_members M s count dets (fun u => u.id ≠ t.id)
    (fun b cnt hc => ?_) (fun u hu he => ?_) t' ht'
  · have := hcnt t ht
    show cnt ≠ t.id
    omega
  · rw [he] at hu
    exact hid hu

/-- C5 counterexample: with the real float behaviour in which a predicted
box overflows to an infinity with no NaN entry (modelled by `infModel`:
a finite center plus a huge velocity overflows to `+inf`, on which
`np.isnan` is false), the predicted box contains a non-finite value and yet
the track survives the same `update` call — refuting the claim that any
non-finite predicted box causes removal. -/
theorem C5_nonfinite_counterexample :
    infModel.nonfiniteBox
      (KalmanBoxTracker.predict infModel
        (KalmanBoxTracker.create infModel dEx.bbox 0).1).1.state = true ∧
    ((ByteTrack.update infModel
        { max_age := 30, min_hits := 3, iou_threshold := 3 / 10
          trackers := [(KalmanBoxTracker.create infModel dEx.bbox 0).1], frame_count := 5 }
        1 []).2.1.trackers).map (·.id) = [0] :=
  ⟨rfl, by decide!⟩

/-- C5 witness: with every predicted box flagged NaN (`nanModel`), the sole
live track's id is gone from the live set after `update`. -/
theorem C5_nan_track_removed_witness :
    ¬ (0 ∈ ((ByteTrack.update nanModel
        { max_age := 30, min_hits := 3, iou_threshold := 3 / 10
          trackers := [(KalmanBoxTracker.create nanModel dEx.bbox 0).1], frame_count := 5 }
        1 []).2.1.trackers).map (·.id)) := by
  intro hmem
  obtain ⟨t', ht', hid⟩ := List.mem_map.1 hmem
  exact C5_nan_track_removed nanModel
    { max_age := 30, min_hits := 3, iou_threshold := 3 / 10
      trackers := [(KalmanBoxTracker.create nanModel dEx.bbox 0).1], frame_count := 5 }
    1 [] (by simp) (by simp [KalmanBoxTracker.create])
    (KalmanBoxTracker.create nanModel dEx.bbox 0).1 (List.mem_singleton_self _) rfl
    t' ht' hid

/-- C6: every emitted object corresponds to a surviving tracker (same
reported id) and its reported confidence is the confidence of the first
detection of the current frame whose IoU with the tracker's current box
exceeds the hard-coded 0.3, or the fixed neutral 0.5 when no detection of
the frame overlaps that box above 0.3. -/
theorem C6_confidence_backfill (M : KFModel κ) (s : ByteTrack κ) (count : ℕ)
    (dets : List Detection) :
    ∀ o ∈ (ByteTrack.update M s count dets).1,
      ∃ t ∈ (ByteTrack.update M s count dets).2.1.trackers,
        o.tracking_id = t.id + 1 ∧
        (((∀ d ∈ dets, iou t.get_state d.bbox ≤ 3 / 10) ∧ o.confidence = 1 / 2) ∨
         (∃ pre d rest, dets = pre ++ d :: rest ∧
            (∀ d' ∈ pre, iou t.get_state d'.bbox ≤ 3 / 10) ∧
            3 / 10 < iou t.get_state d.bbox ∧ o.confidence = d.confidence)) := by
  intro o ho
  rw [update_out_eq] at ho
  obtain ⟨t, ht, hg, rfl⟩ := (mem_emitStage _ _ _ _ _).1 ho
  refine ⟨t, ht, rfl, ?_⟩
  rcases confFor_structure dets t.get_state with ⟨h1, h2⟩ | ⟨pre, d, rest, he, hp, hlt, hc⟩
  · exact Or.inl ⟨h1, h2⟩
  · exact Or.inr ⟨pre, d, rest, he, hp, hlt, hc⟩

/-- C6 witness: the characterisation applied to the single object emitted
by a fresh orchestrator's first frame. -/
theorem C6_confidence_backfill_witness :
    ∃ t ∈ (ByteTrack.update stillModel sEx 0 [dEx]).2.1.trackers,
      (emitTrack [dEx] (KalmanBoxTracker.create stillModel dEx.bbox 0).1).tracking_id =
        t.id + 1 ∧
      (((∀ d ∈ [dEx], iou t.get_state d.bbox ≤ 3 / 10) ∧
          (emitTrack [dEx] (KalmanBoxTracker.create stillModel dEx.bbox 0).1).confidence =
            1 / 2) ∨
       (∃ pre d rest, [dEx] = pre ++ d :: rest ∧
          (∀ d' ∈ pre, iou t.get_state d'.bbox ≤ 3 / 10) ∧
          3 / 10 < iou t.get_state d.bbox ∧
          (emitTrack [dEx] (KalmanBoxTracker.create stillModel dEx.bbox 0).1).confidence =
            d.confidence)) :=
  C6_confidence_backfill stillModel sEx 0 [dEx]
    (emitTrack [dEx] (KalmanBoxTracker.create stillModel dEx.bbox 0).1) (by decide!)

/-- C7 (code-bug evidence): the id counter `KalmanBoxTracker.count` is a
class-level attribute, i.e. process-global state shared by every
orchestrator instance.  A fresh instance running its first frame alone
emits `tracking_id = 1`; the identical call made after another fresh
instance has processed one detection emits `tracking_id = 2` instead — the
instances interfere through the shared counter — and `reset` on any one
instance rewrites that shared counter to 0.  This refutes the claim that
two instances share no state. -/
theorem C7_shared_counter_interference :
    ((ByteTrack.update stillModel sEx 0 [dEx]).1.map (·.tracking_id) = [1]) ∧
    ((ByteTrack.update stillModel sEx
        (ByteTrack.update stillModel sEx 0 [dEx]).2.2 [dEx]).1.map (·.tracking_id) = [2]) ∧
    (ByteTrack.reset sEx).2 = 0 :=
  ⟨by decide!, by decide!, rfl⟩

/-- C8 (code-bug evidence): `ByteTrack.__init__` performs no configuration
validation — construction with a non-positive `max_age` succeeds and stores
the value verbatim (no `ConfigurationError` check or exception type exists
anywhere in the source), and the per-frame `update` on such an orchestrator
also runs without any configuration error: it is a total function that,
with `max_age = -1`, merely prunes every track immediately. -/
theorem C8_no_construction_validation :
    (ByteTrack.construct (-1) 3 (3 / 10) : ByteTrack Unit).max_age = -1 ∧
    (ByteTrack.construct (-1) 3 (3 / 10) : ByteTrack Unit).trackers = [] ∧
    (ByteTrack.construct (-1) 3 (3 / 10) : ByteTrack Unit).frame_count = 0 ∧
    (ByteTrack.update stillModel (ByteTrack.construct (-1) 3 (3 / 10)) 0
      [dEx]).2.1.trackers = [] :=
  ⟨rfl, rfl, rfl, by decide!⟩

/-- C10: a freshly created track starts with `hits = 0` and `hit_streak = 0`
and the class counter advances by one; only the matched-update operation
increments the two counters (each by exactly one), the predict step never
does (it preserves `hits` and can only lower `hit_streak`); consequently
every track spawned within an `update` call still has both counters at 0
when the call returns — the spawning detection itself never counts toward
the `min_hits` confirmation requirement. -/
theorem C10_spawn_counters (M : KFModel κ) :
    (∀ (b : Box) (c : ℕ),
      (KalmanBoxTracker.create M b c).1.hits = 0 ∧
      (KalmanBoxTracker.create M b c).1.hit_streak = 0 ∧
      (KalmanBoxTracker.create M b c).2 = c + 1) ∧
    (∀ (t : KalmanBoxTracker κ) (b : Box),
      (KalmanBoxTracker.update M t b).hits = t.hits + 1 ∧
      (KalmanBoxTracker.update M t b).hit_streak = t.hit_streak + 1) ∧
    (∀ t : KalmanBoxTracker κ,
      (KalmanBoxTracker.predict M t).1.hits = t.hits ∧
      (KalmanBoxTracker.predict M t).1.hit_streak ≤ t.hit_streak) ∧
    (∀ (s : ByteTrack κ) (count : ℕ) (dets : List Detection),
      (∀ t ∈ s.trackers, t.id < count) →
      ∀ t ∈ (ByteTrack.update M s count dets).2.1.trackers,
        count ≤ t.id → t.hits = 0 ∧ t.hit_streak = 0) := by
  refine ⟨fun b c => ⟨rfl, rfl, rfl⟩, fun t b => ⟨rfl, rfl⟩, fun t => ⟨rfl, ?_⟩, ?_⟩
  · rw [predict_hit_streak]
    split
    · exact Nat.zero_le _
    · exact le_rfl
  · intro s count dets hids t ht hc
    refine update_members M s count dets
      (fun u => count ≤ u.id → u.hits = 0 ∧ u.hit_streak = 0)
      (fun b cnt hcnt _ => ⟨rfl, rfl⟩)
      (fun u hu hcu => ?_) t ht hc
    exfalso
    obtain ⟨v, hv, hvideq⟩ := List.mem_map.1 hu
    obtain ⟨⟨w, hw, rfl⟩, _⟩ := mem_predictStage M s.trackers v hv
    rw [predict_id] at hvideq
    have := hids w hw
    omega

/-- C10 witness: the spawned track of a fresh orchestrator's first frame
has both counters at 0. -/
theorem C10_spawn_counters_witness :
    (KalmanBoxTracker.create stillModel dEx.bbox 0).1.hits = 0 ∧
    (KalmanBoxTracker.create stillModel dEx.bbox 0).1.hit_streak = 0 :=
  (C10_spawn_counters stillModel).2.2.2 sEx 0 [dEx] (by simp [sEx, ByteTrack.construct])
    (KalmanBoxTracker.create stillModel dEx.bbox 0).1 (by decide!) (by decide)
